import Mathlib

/-!
Shallow embedding of the CarGo car-rental booking backend (Express/Mongoose).

Conventions of the embedding:
* JS `Date` instants are modelled as `Int` milliseconds since the epoch, with a
  single (UTC) clock: a date-only string `"YYYY-MM-DD"` parses to midnight of
  its day index `d` (`dateOnlyMs d = d * msPerDay`), and a combined
  template-literal parse `new Date(dateStr + "T" + timeStr)` parses to
  `dateTimeMs d t` where `t` is the `"HH:MM"` time as minutes after midnight.
* Mongo documents are Lean structures; the store is a `DB` holding lists of
  cars and bookings; `findOne`/`findById` become `List.find?`, `findByIdAndUpdate`
  becomes a `List.map` that rewrites the matching document without running any
  schema pre-save middleware (Mongoose runs save hooks only on `save()`).
* The Razorpay HMAC-SHA256 helper from node `crypto` is an abstract parameter
  `hmacSha256Hex : String → String → String` (key, message ↦ hex digest);
  the routes only compare its output for string equality.
-/

namespace CarGo

/-- Milliseconds in one hour (`1000 * 60 * 60` in the JS source). -/
def msPerHour : Int := 1000 * 60 * 60

/-- Milliseconds in one day (`1000 * 60 * 60 * 24` in the JS source). -/
def msPerDay : Int := 1000 * 60 * 60 * 24

/-- JS `Math.ceil(a / b)` for integer `a` and positive integer `b`:
the ceiling of the rational `a / b`, via Euclidean division. -/
def ceilDiv (a b : Int) : Int := -(Int.ediv (-a) b)

/-- Parse of a date-only string (`new Date("YYYY-MM-DD")`): midnight (UTC)
of day index `d`. -/
def dateOnlyMs (d : Int) : Int := d * msPerDay

/-- Parse of a combined date+time template literal
(`new Date(dateStr + "T" + timeStr)`): day `d` at `t` minutes after midnight. -/
def dateTimeMs (d : Int) (t : Nat) : Int := d * msPerDay + (t : Int) * 60000

/-- `start.setHours(0, 0, 0, 0)` applied to a parsed date-only value: midnight. -/
def dailyNormStart (d : Int) : Int := d * msPerDay

/-- `end.setHours(23, 59, 59, 999)` applied to a parsed date-only value. -/
def dailyNormEnd (d : Int) : Int := d * msPerDay + 86399999

/-- `bookingType` discriminator of the Booking schema. -/
inductive BookingType where
  | hourly
  | daily
deriving Repr, DecidableEq

/-- `status` enum of the Booking schema. -/
inductive BookingStatus where
  | pending
  | confirmed
  | cancelled
  | completed
deriving Repr, DecidableEq

/-- `paymentStatus` enum of the Booking schema. -/
inductive PaymentStatus where
  | pending
  | paid
  | failed
  | refunded
deriving Repr, DecidableEq

/-- The Car document (fields the booking logic reads). -/
structure Car where
  id : Nat
  isAvailable : Bool
  pricePerDay : Int
  pricePerHour : Int
  totalBookings : Int
deriving Repr, DecidableEq

/-- The Booking document of `models/Booking.js`. `bookingId` is `none` until
the pre-save hook assigns it. -/
structure Booking where
  id : Nat
  user : Nat
  car : Nat
  startDate : Int
  endDate : Int
  startTime : Nat
  endTime : Nat
  totalAmount : Int
  bookingType : BookingType
  duration : Int
  status : BookingStatus
  paymentStatus : PaymentStatus
  razorpayPaymentId : Option String
  razorpayOrderId : Option String
  bookingId : Option String
deriving Repr, DecidableEq

/-- The persistence store: the two collections the booking flow touches. -/
structure DB where
  cars : List Car
  bookings : List Booking
deriving Repr, DecidableEq

/-- `Car.findById`. -/
def findCar (db : DB) (carId : Nat) : Option Car :=
  db.cars.find? (fun c => c.id == carId)

/-- `Booking.findById`. -/
def findBooking (db : DB) (bookingId : Nat) : Option Booking :=
  db.bookings.find? (fun b => b.id == bookingId)

/-- `calculateBookingDetails` of `routes/bookings.js`: duration and total
amount for a requested interval, per booking type.  Start/end dates arrive as
day indices (date-only strings), times as minutes after midnight. -/
def calculateBookingDetails (car : Car) (startDate endDate : Int)
    (startTime endTime : Nat) (bookingType : BookingType) : Int × Int :=
  match bookingType with
  | .daily =>
    let start := dailyNormStart startDate
    let stop := dailyNormEnd endDate
    let duration := ceilDiv (stop - start) msPerDay
    (duration, duration * car.pricePerDay)
  | .hourly =>
    let startDateTime := dateTimeMs startDate startTime
    let endDateTime := dateTimeMs endDate endTime
    let duration := ceilDiv (endDateTime - startDateTime) msPerHour
    (duration, duration * car.pricePerHour)

/-- The Mongo overlap filter used by the availability check, the catalog
date filter and the verify-payment re-check:
`car = carId AND status IN [confirmed, pending] AND startDate <= e AND endDate >= s`. -/
def conflictsWith (carId : Nat) (s e : Int) (b : Booking) : Bool :=
  b.car == carId
    && (b.status == BookingStatus.confirmed || b.status == BookingStatus.pending)
    && decide (b.startDate ≤ e)
    && decide (b.endDate ≥ s)

/-- Outcome of `POST /cars/:id/check-availability`. -/
inductive AvailResult where
  | carNotFound
  | result (available : Bool)
deriving Repr, DecidableEq

/-- `POST /cars/:id/check-availability` of `routes/cars.js`: loads the car,
looks for one overlapping confirmed/pending booking, and reports
`available = !overlappingBooking && car.isAvailable`.  The query interval
is built from the date-only strings (`new Date(startDate)` / `new Date(endDate)`). -/
def checkAvailability (db : DB) (carId : Nat) (startDate endDate : Int) : AvailResult :=
  match findCar db carId with
  | none => .carNotFound
  | some car =>
    let overlapping :=
      db.bookings.find? (conflictsWith carId (dateOnlyMs startDate) (dateOnlyMs endDate))
    .result (overlapping.isNone && car.isAvailable)

/-- Outcome of `POST /bookings/create-razorpay-order`. -/
inductive OrderResult where
  | carNotFound
  | invalidAmount
  | orderCreated (amountMinorUnits : Int)
deriving Repr, DecidableEq

/-- `POST /bookings/create-razorpay-order` of `routes/bookings.js`: loads the
car, computes the amount via `calculateBookingDetails`, rejects non-positive
amounts, otherwise requests a Razorpay order over `totalAmount * 100` minor
units.  No booking document is written; the store is passed through unchanged. -/
def createRazorpayOrder (db : DB) (carId : Nat) (startDate endDate : Int)
    (startTime endTime : Nat) (bookingType : BookingType) : OrderResult × DB :=
  match findCar db carId with
  | none => (.carNotFound, db)
  | some car =>
    let totalAmount := (calculateBookingDetails car startDate endDate startTime endTime bookingType).2
    if totalAmount ≤ 0 then (.invalidAmount, db)
    else (.orderCreated (totalAmount * 100), db)

/-- The generator in the first `bookingSchema pre-save` hook:
`CG + Date.now() + Math.random().toString(36).substr(2, 5).toUpperCase()`.
The clock reading and the random suffix are explicit arguments. -/
def genBookingId (nowMs : Int) (randSuffix : String) : String :=
  "CG" ++ toString nowMs ++ randSuffix

/-- The two `bookingSchema pre-save` hooks of `models/Booking.js`, in
registration order: assign `bookingId` when absent, then reject the write
when `startDate >= endDate`. -/
def runPreSaveHooks (b : Booking) (nowMs : Int) (randSuffix : String) :
    Except String Booking :=
  let b1 :=
    match b.bookingId with
    | none => { b with bookingId := some (genBookingId nowMs randSuffix) }
    | some _ => b
  if b1.startDate ≥ b1.endDate then .error "End date must be after start date"
  else .ok b1

/-- `booking.save()` on a new document: run the pre-save hooks, then insert,
subject to the `unique : true` index on `bookingId` (the storage layer rejects
a duplicate value). -/
def insertBooking (db : DB) (b : Booking) (nowMs : Int) (randSuffix : String) :
    Except String DB :=
  match runPreSaveHooks b nowMs randSuffix with
  | .error e => .error e
  | .ok b1 =>
    if db.bookings.any (fun x => x.bookingId == b1.bookingId) then
      .error "E11000 duplicate key"
    else .ok { db with bookings := db.bookings ++ [b1] }

/-- `booking.save()` on an already-persisted document (the cancel route):
run the pre-save hooks, then overwrite the stored document with that `_id`. -/
def updateBookingDoc (db : DB) (b : Booking) (nowMs : Int) (randSuffix : String) :
    Except String DB :=
  match runPreSaveHooks b nowMs randSuffix with
  | .error e => .error e
  | .ok b1 =>
    .ok { db with bookings := db.bookings.map (fun x => if x.id == b1.id then b1 else x) }

/-- Outcome of `PATCH /bookings/:id/cancel`. -/
inductive CancelResult where
  | notFound
  | accessDenied
  | alreadyStarted
  | alreadyCancelled
  | saveFailed
  | cancelled
deriving Repr, DecidableEq

/-- `PATCH /bookings/:id/cancel` of `routes/bookings.js`: owner-initiated
cancellation.  Loads the booking, rejects non-owners, rejects when
`startDate <= now`, rejects when already cancelled, then sets
status cancelled and saves (running the pre-save hooks). -/
def cancelBooking (db : DB) (bookingId : Nat) (userId : Nat) (now : Int)
    (nowMs : Int) (randSuffix : String) : CancelResult × DB :=
  match findBooking db bookingId with
  | none => (.notFound, db)
  | some booking =>
    if booking.user ≠ userId then (.accessDenied, db)
    else if booking.startDate ≤ now then (.alreadyStarted, db)
    else if booking.status = BookingStatus.cancelled then (.alreadyCancelled, db)
    else
      match updateBookingDoc db { booking with status := BookingStatus.cancelled } nowMs randSuffix with
      | .error _ => (.saveFailed, db)
      | .ok db1 => (.cancelled, db1)

/-- `PATCH /admin/bookings/:id/status` of `routes/admin.js`:
`Booking.findByIdAndUpdate(id, { status }, { new: true })`.  A Mongoose
`findByIdAndUpdate` runs neither the pre-save middleware nor (by
default) the schema validators; it rewrites only the `status` field of the
matching document. -/
def adminUpdateBookingStatus (db : DB) (bookingId : Nat)
    (status : BookingStatus) : Option DB :=
  match findBooking db bookingId with
  | none => none
  | some b =>
    let updated := db.bookings.map (fun x => if x.id == b.id then { x with status := status } else x)
    some { db with bookings := updated }

/-- The `bookingDetails` object the client resubmits to `verify-payment`. -/
structure BookingDetails where
  carId : Nat
  startDate : Int
  endDate : Int
  startTime : Nat
  endTime : Nat
  bookingType : BookingType
deriving Repr, DecidableEq

/-- Outcome of `POST /bookings/verify-payment`. -/
inductive VerifyResult where
  | invalidSignature
  | carNotFound
  | carUnavailable
  | overlap
  | saveFailed
  | booked
deriving Repr, DecidableEq

/-- The booking document built by `verify-payment` before `booking.save()`:
dates stored from the date-only strings, status confirmed,
paymentStatus paid, the Razorpay identifiers attached, `bookingId` not
yet assigned. -/
def newConfirmedBooking (car : Car) (orderId paymentId : String) (d : BookingDetails)
    (userId newId : Nat) : Booking :=
  let details := calculateBookingDetails car d.startDate d.endDate d.startTime d.endTime d.bookingType
  { id := newId
    user := userId
    car := d.carId
    startDate := dateOnlyMs d.startDate
    endDate := dateOnlyMs d.endDate
    startTime := d.startTime
    endTime := d.endTime
    totalAmount := details.2
    bookingType := d.bookingType
    duration := details.1
    status := BookingStatus.confirmed
    paymentStatus := PaymentStatus.paid
    razorpayPaymentId := some paymentId
    razorpayOrderId := some orderId
    bookingId := none }

/-- The post-signature part of `POST /bookings/verify-payment`: car reload,
availability flag check, overlap re-check over the interval built from
`new Date(startDate + "T" + startTime)` / `new Date(endDate + "T" + endTime)`
(for both booking types), pricing recomputation, booking save, and the
`totalBookings` counter increment. -/
def processVerifiedBooking (db : DB) (orderId paymentId : String) (d : BookingDetails)
    (userId newId : Nat) (nowMs : Int) (randSuffix : String) : VerifyResult × DB :=
  match findCar db d.carId with
  | none => (.carNotFound, db)
  | some car =>
    if !car.isAvailable then (.carUnavailable, db)
    else
      let startCheck := dateTimeMs d.startDate d.startTime
      let endCheck := dateTimeMs d.endDate d.endTime
      if db.bookings.any (conflictsWith d.carId startCheck endCheck) then (.overlap, db)
      else
        match insertBooking db (newConfirmedBooking car orderId paymentId d userId newId) nowMs randSuffix with
        | .error _ => (.saveFailed, db)
        | .ok db1 =>
          let cars1 := db1.cars.map (fun c => if c.id == d.carId then { c with totalBookings := c.totalBookings + 1 } else c)
          (.booked, { db1 with cars := cars1 })

/-- `POST /bookings/verify-payment` of `routes/bookings.js`.  Recomputes the
HMAC-SHA256 hex signature over `orderId + "|" + paymentId` with the Razorpay
key secret, rejects on mismatch, and otherwise runs the post-signature
booking commit.  `hmacSha256Hex` abstracts the node crypto HMAC-SHA256 hex
digest helper. -/
def verifyPayment (db : DB) (hmacSha256Hex : String → String → String)
    (keySecret orderId paymentId signature : String) (d : BookingDetails)
    (userId newId : Nat) (nowMs : Int) (randSuffix : String) : VerifyResult × DB :=
  if hmacSha256Hex keySecret (orderId ++ "|" ++ paymentId) ≠ signature then (.invalidSignature, db)
  else processVerifiedBooking db orderId paymentId d userId newId nowMs randSuffix

/-! ### Demonstration store used by witnesses and counterexamples -/

/-- A concrete car used by the closed witness statements. -/
def demoCar : Car :=
  { id := 1, isAvailable := true, pricePerDay := 100, pricePerHour := 10, totalBookings := 0 }

/-- A concrete confirmed booking on `demoCar` covering days 10–12. -/
def demoBooking : Booking :=
  { id := 1, user := 7, car := 1
    startDate := dateOnlyMs 10, endDate := dateOnlyMs 12
    startTime := 600, endTime := 600
    totalAmount := 300, bookingType := BookingType.daily, duration := 3
    status := BookingStatus.confirmed, paymentStatus := PaymentStatus.paid
    razorpayPaymentId := some "pay_1", razorpayOrderId := some "order_1"
    bookingId := some "CG1ABCDE" }

/-- A concrete store holding `demoCar` and `demoBooking`. -/
def demoDb : DB := { cars := [demoCar], bookings := [demoBooking] }

/-- An always-unavailable car and a store around it, for the failing
verify-payment witnesses. -/
def offCar : Car :=
  { id := 2, isAvailable := false, pricePerDay := 100, pricePerHour := 10, totalBookings := 0 }

/-- Store holding only `offCar`. -/
def offDb : DB := { cars := [offCar], bookings := [] }

/-- Concrete resubmitted booking details targeting `offCar`. -/
def demoDetails : BookingDetails :=
  { carId := 2, startDate := 10, endDate := 12, startTime := 0, endTime := 0
    bookingType := BookingType.daily }

/-- A concrete stand-in for the abstract HMAC-SHA256 hex function. -/
def demoHmac : String → String → String := fun key msg => key ++ ":" ++ msg

/-- A fresh unsaved booking document (no `bookingId` yet). -/
def freshBooking : Booking :=
  { id := 3, user := 7, car := 1
    startDate := dateOnlyMs 20, endDate := dateOnlyMs 22
    startTime := 0, endTime := 0
    totalAmount := 300, bookingType := BookingType.daily, duration := 3
    status := BookingStatus.confirmed, paymentStatus := PaymentStatus.paid
    razorpayPaymentId := some "pay_2", razorpayOrderId := some "order_2"
    bookingId := none }

/-- The store after inserting `freshBooking` at clock 222 with suffix ZZZZZ. -/
def insertedDb : DB :=
  { cars := [demoCar],
    bookings := [demoBooking, { freshBooking with bookingId := some (genBookingId 222 "ZZZZZ") }] }

/-- A booking whose dates are in the wrong order (start day 5, end day 3),
as it would look if it were ever stored. -/
def badBooking : Booking :=
  { id := 9, user := 7, car := 1
    startDate := dateOnlyMs 5, endDate := dateOnlyMs 3
    startTime := 0, endTime := 0
    totalAmount := 0, bookingType := BookingType.daily, duration := 0
    status := BookingStatus.pending, paymentStatus := PaymentStatus.pending
    razorpayPaymentId := none, razorpayOrderId := none
    bookingId := some "CGBAD" }

/-- A store containing `badBooking`. -/
def badDb : DB := { cars := [], bookings := [badBooking] }

/-- `badDb` after the admin status write. -/
def badDbAfter : DB :=
  { cars := [], bookings := [{ badBooking with status := BookingStatus.completed }] }

/-- All stored bookings have strictly ordered dates. -/
def DatesOk (db : DB) : Prop := ∀ b ∈ db.bookings, b.startDate < b.endDate

/-- One persistence write of the system: a direct document save (insert or
update of an existing document), the verify-payment commit, the owner
cancellation, or the admin status update. -/
inductive Step : DB → DB → Prop where
  | insert (db : DB) (b : Booking) (nowMs : Int) (rand : String) (db' : DB) :
      insertBooking db b nowMs rand = Except.ok db' → Step db db'
  | update (db : DB) (b : Booking) (nowMs : Int) (rand : String) (db' : DB) :
      updateBookingDoc db b nowMs rand = Except.ok db' → Step db db'
  | verify (db : DB) (hmac : String → String → String)
      (secret orderId paymentId sig : String) (d : BookingDetails)
      (userId newId : Nat) (nowMs : Int) (rand : String) (r : VerifyResult) (db' : DB) :
      verifyPayment db hmac secret orderId paymentId sig d userId newId nowMs rand = (r, db') →
      Step db db'
  | cancel (db : DB) (bid userId : Nat) (now nowMs : Int) (rand : String)
      (r : CancelResult) (db' : DB) :
      cancelBooking db bid userId now nowMs rand = (r, db') → Step db db'
  | adminStatus (db : DB) (bid : Nat) (st : BookingStatus) (db' : DB) :
      adminUpdateBookingStatus db bid st = some db' → Step db db'

/-- A daily booking request whose companion times are both `"00:00"`. -/
def dailyZeroDetails : BookingDetails :=
  { carId := 1, startDate := 30, endDate := 32, startTime := 0, endTime := 0
    bookingType := BookingType.daily }

/-- A daily request conflicting with the demonstration booking under the
date+time re-check interval. -/
def clashDetails : BookingDetails :=
  { carId := 1, startDate := 11, endDate := 13, startTime := 0, endTime := 0
    bookingType := BookingType.daily }

/-! ### Ceiling-division facts -/

/-- `ceilDiv a b` is the least integer `n` with `a ≤ n * b`: both bounds. -/
theorem ceilDiv_bounds (a b : Int) (hb : 0 < b) :
    (ceilDiv a b - 1) * b < a ∧ a ≤ ceilDiv a b * b := by
  have h1 : b * (Int.ediv (-a) b) + Int.emod (-a) b = -a := Int.ediv_add_emod (-a) b
  have h2 : 0 ≤ Int.emod (-a) b := Int.emod_nonneg (-a) (ne_of_gt hb)
  have h3 : Int.emod (-a) b < b := Int.emod_lt_of_pos (-a) hb
  unfold ceilDiv
  constructor <;> nlinarith [h1, h2, h3]

/-- Uniqueness of the ceiling: any `n` in the window is the value of `ceilDiv`. -/
theorem ceilDiv_eq_of_bounds (a b n : Int) (hb : 0 < b)
    (h1 : (n - 1) * b < a) (h2 : a ≤ n * b) : ceilDiv a b = n := by
  obtain ⟨c1, c2⟩ := ceilDiv_bounds a b hb
  have hcn : ceilDiv a b ≤ n := by
    by_contra hlt
    push_neg at hlt
    have hle : n ≤ ceilDiv a b - 1 := by omega
    have := mul_le_mul_of_nonneg_right hle (le_of_lt hb)
    linarith
  have hnc : n ≤ ceilDiv a b := by
    by_contra hlt
    push_neg at hlt
    have hle : ceilDiv a b ≤ n - 1 := by omega
    have := mul_le_mul_of_nonneg_right hle (le_of_lt hb)
    linarith
  omega

/-! ### C1: availability check -/

/-- C1.  The availability check for a car and a requested interval reports the
car unavailable exactly when the `isAvailable` flag of the car is false or some
booking on the same car with status confirmed or pending satisfies the
inclusive overlap test `existing.startDate <= end AND existing.endDate >= start`
against the parsed query interval; cancelled and completed bookings are never
considered. -/
theorem checkAvailability_unavailable_iff
    (db : DB) (carId : Nat) (startDate endDate : Int) (car : Car) (a : Bool)
    (hcar : findCar db carId = some car)
    (hres : checkAvailability db carId startDate endDate = AvailResult.result a) :
    a = false ↔
      (car.isAvailable = false ∨
        ∃ b ∈ db.bookings, b.car = carId ∧
          (b.status = BookingStatus.confirmed ∨ b.status = BookingStatus.pending) ∧
          b.startDate ≤ dateOnlyMs endDate ∧ dateOnlyMs startDate ≤ b.endDate) := by
  unfold checkAvailability at hres
  rw [hcar] at hres
  simp only [AvailResult.result.injEq] at hres
  subst hres
  rw [Bool.and_eq_false_iff]
  have hfind : (db.bookings.find?
      (conflictsWith carId (dateOnlyMs startDate) (dateOnlyMs endDate))).isNone = false ↔
      ∃ b ∈ db.bookings,
        conflictsWith carId (dateOnlyMs startDate) (dateOnlyMs endDate) b = true := by
    rw [← List.find?_isSome]
    cases hf : db.bookings.find?
        (conflictsWith carId (dateOnlyMs startDate) (dateOnlyMs endDate)) <;>
      simp [hf]
  constructor
  · rintro (hnone | hflag)
    · right
      obtain ⟨b, hmem, hconf⟩ := hfind.mp hnone
      refine ⟨b, hmem, ?_⟩
      simp only [conflictsWith, Bool.and_eq_true, Bool.or_eq_true, beq_iff_eq,
        decide_eq_true_eq, ge_iff_le] at hconf
      tauto
    · left; exact hflag
  · rintro (hflag | ⟨b, hmem, hcar', hstat, hs, he⟩)
    · right; exact hflag
    · left
      refine hfind.mpr ⟨b, hmem, ?_⟩
      simp only [conflictsWith, Bool.and_eq_true, Bool.or_eq_true, beq_iff_eq,
        decide_eq_true_eq, ge_iff_le]
      tauto

/-- Closed instance of C1: on the demonstration store, the interval days 11–13
conflicts with the confirmed booking on days 10–12, so the check reports
unavailable. -/
theorem checkAvailability_unavailable_iff_witness :
    checkAvailability demoDb 1 11 13 = AvailResult.result false ∧
      (false = false ↔
        (demoCar.isAvailable = false ∨
          ∃ b ∈ demoDb.bookings, b.car = 1 ∧
            (b.status = BookingStatus.confirmed ∨ b.status = BookingStatus.pending) ∧
            b.startDate ≤ dateOnlyMs 13 ∧ dateOnlyMs 11 ≤ b.endDate)) :=
  ⟨by decide, checkAvailability_unavailable_iff demoDb 1 11 13 demoCar false (by decide) (by decide)⟩

/-! ### C4: daily pricing -/

/-- C4, counterexample.  Day 19723 is 2024-01-01 and day 19725 is 2024-01-03.
Normalizing to 00:00:00.000 and 23:59:59.999 leaves a difference of three days
minus one millisecond, whose ceiling in days is 3 — not 2 as the claim states —
so with `pricePerDay = 100` the charge is 300, not 200. -/
theorem daily_pricing_example_cex :
    (calculateBookingDetails demoCar 19723 19725 0 0 BookingType.daily).1 ≠ 2 ∧
      calculateBookingDetails demoCar 19723 19725 0 0 BookingType.daily = (3, 300) := by
  constructor
  · decide
  · decide

/-- C4, amended.  Daily pricing normalizes the start to 00:00:00.000 and the
end to 23:59:59.999 of their days and takes the ceiling of the millisecond
difference over one day, times `pricePerDay`; consequently dates `k` days
apart yield duration `k + 1`, and the 2024-01-01 → 2024-01-03 booking has
duration 3 and total `3 * pricePerDay`. -/
theorem daily_pricing_spec :
    (∀ (car : Car) (sd ed : Int) (st et : Nat),
      calculateBookingDetails car sd ed st et BookingType.daily =
        (ceilDiv (dailyNormEnd ed - dailyNormStart sd) msPerDay,
          ceilDiv (dailyNormEnd ed - dailyNormStart sd) msPerDay * car.pricePerDay)) ∧
    (∀ (car : Car) (sd k : Int) (st et : Nat),
      calculateBookingDetails car sd (sd + k) st et BookingType.daily =
        (k + 1, (k + 1) * car.pricePerDay)) ∧
    calculateBookingDetails demoCar 19723 19725 0 0 BookingType.daily = (3, 300) := by
  refine ⟨fun car sd ed st et => rfl, fun car sd k st et => ?_, by decide⟩
  have hdiff : dailyNormEnd (sd + k) - dailyNormStart sd = k * msPerDay + 86399999 := by
    unfold dailyNormEnd dailyNormStart
    ring
  have hceil : ceilDiv (k * msPerDay + 86399999) msPerDay = k + 1 := by
    refine ceilDiv_eq_of_bounds _ _ _ (by decide) ?_ ?_
    · have he : (k + 1 - 1) * msPerDay = k * msPerDay := by ring
      rw [he]
      have : (0 : Int) < 86399999 := by decide
      linarith
    · have he : (k + 1) * msPerDay = k * msPerDay + msPerDay := by ring
      rw [he]
      have : (86399999 : Int) ≤ msPerDay := by decide
      linarith
  simp only [calculateBookingDetails, hdiff, hceil]

/-! ### C5: hourly pricing -/

/-- C5.  Hourly pricing combines each date with its companion time into one
instant and charges `duration * pricePerHour` where `duration` is the least
whole number of hours covering the millisecond difference (partial hours round
up); in particular any 1-hour-1-minute booking has duration 2 and is charged
`2 * pricePerHour`. -/
theorem hourly_pricing_spec :
    (∀ (car : Car) (sd ed : Int) (st et : Nat),
      (calculateBookingDetails car sd ed st et BookingType.hourly).2 =
          (calculateBookingDetails car sd ed st et BookingType.hourly).1 * car.pricePerHour ∧
        dateTimeMs ed et - dateTimeMs sd st ≤
          (calculateBookingDetails car sd ed st et BookingType.hourly).1 * msPerHour ∧
        ((calculateBookingDetails car sd ed st et BookingType.hourly).1 - 1) * msPerHour <
          dateTimeMs ed et - dateTimeMs sd st) ∧
    (∀ (car : Car) (sd : Int) (st : Nat),
      calculateBookingDetails car sd sd st (st + 61) BookingType.hourly =
        (2, 2 * car.pricePerHour)) := by
  constructor
  · intro car sd ed st et
    obtain ⟨hlo, hhi⟩ :=
      ceilDiv_bounds (dateTimeMs ed et - dateTimeMs sd st) msPerHour (by decide)
    exact ⟨rfl, hhi, hlo⟩
  · intro car sd st
    have hd : dateTimeMs sd (st + 61) - dateTimeMs sd st = 3660000 := by
      unfold dateTimeMs
      push_cast
      ring
    have hc : ceilDiv 3660000 msPerHour = 2 := by decide
    simp only [calculateBookingDetails, hd, hc]

/-! ### Shape lemmas for the save pipeline -/

/-- A successful run of the pre-save hooks returns the input document with
`bookingId` filled in (freshly generated only when it was absent), and only
when its dates are strictly ordered. -/
theorem runPreSaveHooks_ok (b : Booking) (nowMs : Int) (rand : String) (b1 : Booking)
    (h : runPreSaveHooks b nowMs rand = Except.ok b1) :
    b1 = { b with bookingId :=
        match b.bookingId with
        | none => some (genBookingId nowMs rand)
        | some s => some s } ∧
      b1.startDate < b1.endDate := by
  unfold runPreSaveHooks at h
  obtain ⟨bI, bU, bC, bSD, bED, bST, bET, bTA, bBT, bDur, bSt, bPS, bRP, bRO, bBid⟩ := b
  rcases hb : bBid with _ | s <;> subst hb <;> simp only [] at h <;> split at h <;> cases h <;>
    rename_i hcond
  · exact ⟨rfl, lt_of_not_ge hcond⟩
  · exact ⟨rfl, lt_of_not_ge hcond⟩

/-- A successful `insert` of a new booking appends exactly the hook-processed
document, leaves the cars untouched, and certifies that no stored booking
already carried the same `bookingId`. -/
theorem insertBooking_ok (db : DB) (b : Booking) (nowMs : Int) (rand : String) (db' : DB)
    (h : insertBooking db b nowMs rand = Except.ok db') :
    ∃ b1, runPreSaveHooks b nowMs rand = Except.ok b1 ∧
      db'.bookings = db.bookings ++ [b1] ∧ db'.cars = db.cars ∧
      ∀ x ∈ db.bookings, x.bookingId ≠ b1.bookingId := by
  unfold insertBooking at h
  rcases hh : runPreSaveHooks b nowMs rand with e | b1 <;> simp only [hh] at h
  · cases h
  · split at h
    · cases h
    · cases h
      rename_i hdup
      refine ⟨b1, rfl, rfl, rfl, ?_⟩
      intro x hx hcontra
      exact hdup (List.any_eq_true.mpr ⟨x, hx, by rw [hcontra]; exact beq_self_eq_true _⟩)

/-- A `find?` by id after replacing the found document (same id) returns the
replacement. -/
theorem find?_map_replace (l : List Booking) (n : Nat) (b c : Booking)
    (hf : l.find? (fun x => x.id == n) = some b) (hc : c.id = b.id) :
    (l.map (fun x => if x.id == c.id then c else x)).find? (fun x => x.id == n) = some c := by
  have hbn : b.id = n := by simpa using List.find?_some hf
  induction l with
  | nil => simp at hf
  | cons hd tl ih =>
    by_cases hhd : hd.id = n
    · rw [List.find?_cons_of_pos _ (by simpa using hhd)] at hf
      injection hf with hf
      subst hf
      rw [List.map_cons, if_pos (by simp [hc]), List.find?_cons_of_pos _ (by simp [hc, hbn])]
    · rw [List.find?_cons_of_neg _ (by simpa using hhd)] at hf
      rw [List.map_cons, if_neg (by simp [hc, hbn, hhd]), List.find?_cons_of_neg _ (by simpa using hhd)]
      exact ih hf

/-- Exhaustive description of the post-signature commit step: it never reports
a signature failure, it leaves the store untouched unless it books, it books by
appending one document and incrementing the counter of the car, and each failing
guard produces its own error. -/
theorem processVerifiedBooking_cases (db : DB) (orderId paymentId : String)
    (d : BookingDetails) (userId newId : Nat) (nowMs : Int) (rand : String)
    (r : VerifyResult) (db' : DB)
    (h : processVerifiedBooking db orderId paymentId d userId newId nowMs rand = (r, db')) :
    r ≠ VerifyResult.invalidSignature ∧
      (r ≠ VerifyResult.booked → db' = db) ∧
      (r = VerifyResult.booked → ∃ b1,
        db'.bookings = db.bookings ++ [b1] ∧
        db'.cars = db.cars.map (fun c => if c.id == d.carId then { c with totalBookings := c.totalBookings + 1 } else c)) ∧
      (findCar db d.carId = none → r = VerifyResult.carNotFound) ∧
      (∀ car, findCar db d.carId = some car → car.isAvailable = false →
        r = VerifyResult.carUnavailable) ∧
      (∀ car, findCar db d.carId = some car → car.isAvailable = true →
        db.bookings.any (conflictsWith d.carId (dateTimeMs d.startDate d.startTime)
          (dateTimeMs d.endDate d.endTime)) = true →
        r = VerifyResult.overlap) := by
  unfold processVerifiedBooking at h
  rcases hfc : findCar db d.carId with _ | car <;> simp only [hfc] at h
  · cases h
    refine ⟨by decide, fun _ => rfl, fun hb => absurd hb (by decide), fun _ => rfl, ?_, ?_⟩
    · intro car hsome
      cases hsome
    · intro car hsome
      cases hsome
  · split at h
    · rename_i hflag
      cases h
      refine ⟨by decide, fun _ => rfl, fun hb => absurd hb (by decide), ?_, fun _ _ _ => rfl, ?_⟩
      · intro hnone
        cases hnone
      · intro car' hsome havail _
        injection hsome with he
        subst he
        rw [havail] at hflag
        cases hflag
    · rename_i hflag
      split at h
      · rename_i hany
        cases h
        refine ⟨by decide, fun _ => rfl, fun hb => absurd hb (by decide), ?_, ?_, fun _ _ _ _ => rfl⟩
        · intro hnone
          cases hnone
        · intro car' hsome hav
          injection hsome with he
          subst he
          rw [hav] at hflag
          exact absurd rfl hflag
      · rename_i hany
        rcases hins : insertBooking db (newConfirmedBooking car orderId paymentId d userId newId) nowMs rand
            with e | db1 <;> simp only [hins] at h
        · cases h
          refine ⟨by decide, fun _ => rfl, fun hb => absurd hb (by decide), ?_, ?_, ?_⟩
          · intro hnone
            cases hnone
          · intro car' hsome hav
            injection hsome with he
            subst he
            rw [hav] at hflag
            exact absurd rfl hflag
          · intro car' hsome _ hcontra
            exact absurd hcontra hany
        · cases h
          obtain ⟨b1, hhook, hbk, hcars, huniq⟩ := insertBooking_ok _ _ _ _ _ hins
          refine ⟨by decide, fun hne => absurd rfl hne, fun _ => ⟨b1, hbk, ?_⟩, ?_, ?_, ?_⟩
          · show db1.cars.map _ = _
            rw [hcars]
          · intro hnone
            cases hnone
          · intro car' hsome hav
            injection hsome with he
            subst he
            rw [hav] at hflag
            exact absurd rfl hflag
          · intro car' hsome _ hcontra
            exact absurd hcontra hany

/-! ### C2 / C3: verify-payment -/

/-- C2.  In verify-payment the store is left exactly as it was whenever the
result is not a successful booking — in particular when the authoritative
re-check finds a missing car, an unavailable car, or a conflicting
confirmed/pending booking, each of which forces the corresponding failure —
and only a fully successful run appends the one new booking and increments
the car's `totalBookings` counter. -/
theorem verifyPayment_no_partial_commit
    (db : DB) (hmac : String → String → String) (secret orderId paymentId sig : String)
    (d : BookingDetails) (userId newId : Nat) (nowMs : Int) (rand : String)
    (r : VerifyResult) (db' : DB)
    (h : verifyPayment db hmac secret orderId paymentId sig d userId newId nowMs rand = (r, db')) :
    (r ≠ VerifyResult.booked → db' = db) ∧
      (hmac secret (orderId ++ "|" ++ paymentId) = sig → findCar db d.carId = none →
        r = VerifyResult.carNotFound) ∧
      (∀ car, hmac secret (orderId ++ "|" ++ paymentId) = sig → findCar db d.carId = some car →
        car.isAvailable = false → r = VerifyResult.carUnavailable) ∧
      (∀ car, hmac secret (orderId ++ "|" ++ paymentId) = sig → findCar db d.carId = some car →
        car.isAvailable = true →
        db.bookings.any (conflictsWith d.carId (dateTimeMs d.startDate d.startTime)
          (dateTimeMs d.endDate d.endTime)) = true →
        r = VerifyResult.overlap) ∧
      (r = VerifyResult.booked → ∃ b1,
        db'.bookings = db.bookings ++ [b1] ∧
        db'.cars = db.cars.map (fun c => if c.id == d.carId then { c with totalBookings := c.totalBookings + 1 } else c)) := by
  unfold verifyPayment at h
  split at h
  · rename_i hne
    cases h
    exact ⟨fun _ => rfl,
      fun heq => absurd heq hne,
      fun _ heq => absurd heq hne,
      fun _ heq => absurd heq hne,
      fun hb => absurd hb (by decide)⟩
  · have hc := processVerifiedBooking_cases db orderId paymentId d userId newId nowMs rand r db' h
    exact ⟨hc.2.1, fun _ => hc.2.2.2.1, fun car _ => hc.2.2.2.2.1 car,
      fun car _ => hc.2.2.2.2.2 car, hc.2.2.1⟩

/-- Closed instance of C2: with the matching signature but an unavailable car,
verify-payment fails with `carUnavailable` and leaves the store untouched. -/
theorem verifyPayment_no_partial_commit_witness :
    (verifyPayment offDb demoHmac "S" "order_1" "pay_1" "S:order_1|pay_1" demoDetails 7 5 111 "AB").2 = offDb ∧
      (verifyPayment offDb demoHmac "S" "order_1" "pay_1" "S:order_1|pay_1" demoDetails 7 5 111 "AB").1 =
        VerifyResult.carUnavailable :=
  ⟨(verifyPayment_no_partial_commit offDb demoHmac "S" "order_1" "pay_1" "S:order_1|pay_1"
      demoDetails 7 5 111 "AB" _ _ rfl).1 (by decide), by decide⟩

/-- C3.  Verify-payment reports an invalid signature exactly when the supplied
signature differs from the HMAC-SHA256 hex digest (keyed with the provider
secret) of `orderId + "|" + paymentId`, and a mismatched signature makes no
persistence change. -/
theorem verifyPayment_signature_spec
    (db : DB) (hmac : String → String → String) (secret orderId paymentId sig : String)
    (d : BookingDetails) (userId newId : Nat) (nowMs : Int) (rand : String)
    (r : VerifyResult) (db' : DB)
    (h : verifyPayment db hmac secret orderId paymentId sig d userId newId nowMs rand = (r, db')) :
    (r = VerifyResult.invalidSignature ↔ sig ≠ hmac secret (orderId ++ "|" ++ paymentId)) ∧
      (sig ≠ hmac secret (orderId ++ "|" ++ paymentId) → db' = db) := by
  unfold verifyPayment at h
  split at h
  · rename_i hne
    cases h
    exact ⟨⟨fun _ => Ne.symm hne, fun _ => rfl⟩, fun _ => rfl⟩
  · rename_i hns
    have heq : hmac secret (orderId ++ "|" ++ paymentId) = sig := not_ne_iff.mp hns
    have hc := processVerifiedBooking_cases db orderId paymentId d userId newId nowMs rand r db' h
    exact ⟨⟨fun hr => absurd hr hc.1, fun hsigne => absurd heq (Ne.symm hsigne)⟩,
      fun hsigne => absurd heq (Ne.symm hsigne)⟩

/-- Closed instance of C3: a signature other than the digest is rejected with
`invalidSignature` and the store is unchanged. -/
theorem verifyPayment_signature_spec_witness :
    (verifyPayment offDb demoHmac "S" "order_1" "pay_1" "forged" demoDetails 7 5 111 "AB").2 = offDb ∧
      (verifyPayment offDb demoHmac "S" "order_1" "pay_1" "forged" demoDetails 7 5 111 "AB").1 =
        VerifyResult.invalidSignature :=
  ⟨(verifyPayment_signature_spec offDb demoHmac "S" "order_1" "pay_1" "forged"
      demoDetails 7 5 111 "AB" _ _ rfl).2 (by decide), by decide⟩

/-! ### C6: order creation -/

/-- C6.  Order creation rejects with `invalidAmount` whenever the computed
total is ≤ 0, requests an external order over exactly `totalAmount * 100`
minor units when the total is positive, and never touches the store (so no
booking document is created at this step). -/
theorem createRazorpayOrder_spec
    (db : DB) (carId : Nat) (sd ed : Int) (st et : Nat) (bt : BookingType) (car : Car)
    (hcar : findCar db carId = some car) :
    ((calculateBookingDetails car sd ed st et bt).2 ≤ 0 →
      (createRazorpayOrder db carId sd ed st et bt).1 = OrderResult.invalidAmount) ∧
      (0 < (calculateBookingDetails car sd ed st et bt).2 →
        (createRazorpayOrder db carId sd ed st et bt).1 =
          OrderResult.orderCreated ((calculateBookingDetails car sd ed st et bt).2 * 100)) ∧
      (createRazorpayOrder db carId sd ed st et bt).2 = db := by
  unfold createRazorpayOrder
  simp only [hcar]
  refine ⟨fun hle => ?_, fun hpos => ?_, ?_⟩
  · rw [if_pos hle]
  · rw [if_neg (not_le.mpr hpos)]
  · by_cases hc : (calculateBookingDetails car sd ed st et bt).2 ≤ 0
    · rw [if_pos hc]
    · rw [if_neg hc]

/-- Closed instance of C6: on the demonstration store a 10→12 daily booking
costs 300, so the order is for 30000 minor units and the store is unchanged. -/
theorem createRazorpayOrder_spec_witness :
    (createRazorpayOrder demoDb 1 10 12 0 0 BookingType.daily).1 =
        OrderResult.orderCreated 30000 ∧
      (createRazorpayOrder demoDb 1 10 12 0 0 BookingType.daily).2 = demoDb := by
  have h := createRazorpayOrder_spec demoDb 1 10 12 0 0 BookingType.daily demoCar (by decide)
  refine ⟨?_, h.2.2⟩
  have h1 := h.2.1 (by decide)
  have h2 : (calculateBookingDetails demoCar 10 12 0 0 BookingType.daily).2 * 100 = 30000 := by decide
  rw [h2] at h1
  exact h1

/-! ### C7: owner-initiated cancellation -/

/-- The pre-save hooks fail only on a date-order violation. -/
theorem runPreSaveHooks_error (b : Booking) (nowMs : Int) (rand : String) (e : String)
    (h : runPreSaveHooks b nowMs rand = Except.error e) : b.endDate ≤ b.startDate := by
  unfold runPreSaveHooks at h
  rcases hbid : b.bookingId with _ | s <;> simp only [hbid] at h <;> split at h
  · rename_i hcond
    exact hcond
  · cases h
  · rename_i hcond
    exact hcond
  · cases h

/-- A successful save of an existing document replaces the stored document
with the hook-processed one and touches nothing else. -/
theorem updateBookingDoc_ok (db : DB) (b : Booking) (nowMs : Int) (rand : String) (db' : DB)
    (h : updateBookingDoc db b nowMs rand = Except.ok db') :
    ∃ b1, runPreSaveHooks b nowMs rand = Except.ok b1 ∧
      db'.bookings = db.bookings.map (fun x => if x.id == b1.id then b1 else x) ∧
      db'.cars = db.cars := by
  unfold updateBookingDoc at h
  rcases hh : runPreSaveHooks b nowMs rand with e | b1 <;> simp only [hh] at h
  · cases h
  · cases h
    exact ⟨b1, rfl, rfl, rfl⟩

/-- A failing save of an existing document can only come from the date hook. -/
theorem updateBookingDoc_error (db : DB) (b : Booking) (nowMs : Int) (rand : String) (e : String)
    (h : updateBookingDoc db b nowMs rand = Except.error e) : b.endDate ≤ b.startDate := by
  unfold updateBookingDoc at h
  rcases hh : runPreSaveHooks b nowMs rand with e2 | b1 <;> simp only [hh] at h
  · cases h
    exact runPreSaveHooks_error b nowMs rand _ hh
  · cases h

/-- C7.  Owner-initiated cancellation succeeds exactly when the booking
belongs to the requesting identity, the current time is strictly before the
start of the booking, and the status is not already cancelled; success persists
the same booking with status cancelled, and any failure leaves the store
unchanged.  (The stored booking is assumed date-ordered, which every
save-created booking is.) -/
theorem cancelBooking_spec
    (db : DB) (bid userId : Nat) (now nowMs : Int) (rand : String) (booking : Booking)
    (r : CancelResult) (db' : DB)
    (hb : findBooking db bid = some booking)
    (hdates : booking.startDate < booking.endDate)
    (h : cancelBooking db bid userId now nowMs rand = (r, db')) :
    (r = CancelResult.cancelled ↔
      booking.user = userId ∧ now < booking.startDate ∧
        booking.status ≠ BookingStatus.cancelled) ∧
      (r = CancelResult.cancelled → ∃ b1, findBooking db' bid = some b1 ∧
        b1.status = BookingStatus.cancelled ∧ b1.id = booking.id ∧ b1.user = booking.user ∧
        b1.startDate = booking.startDate ∧ b1.endDate = booking.endDate) ∧
      (r ≠ CancelResult.cancelled → db' = db) := by
  unfold cancelBooking at h
  simp only [hb] at h
  by_cases hu : booking.user ≠ userId
  · rw [if_pos hu] at h
    cases h
    exact ⟨⟨fun hr => absurd hr (by decide), fun ⟨hu', _, _⟩ => absurd hu' hu⟩,
      fun hr => absurd hr (by decide), fun _ => rfl⟩
  · rw [if_neg hu] at h
    push_neg at hu
    by_cases hs : booking.startDate ≤ now
    · rw [if_pos hs] at h
      cases h
      exact ⟨⟨fun hr => absurd hr (by decide), fun ⟨_, hnow, _⟩ => absurd hnow (not_lt.mpr hs)⟩,
        fun hr => absurd hr (by decide), fun _ => rfl⟩
    · rw [if_neg hs] at h
      by_cases hc : booking.status = BookingStatus.cancelled
      · rw [if_pos hc] at h
        cases h
        exact ⟨⟨fun hr => absurd hr (by decide), fun ⟨_, _, hnc⟩ => absurd hc hnc⟩,
          fun hr => absurd hr (by decide), fun _ => rfl⟩
      · rw [if_neg hc] at h
        rcases hup : updateBookingDoc db { booking with status := BookingStatus.cancelled } nowMs rand
            with e | db1 <;> simp only [hup] at h
        · exfalso
          have hbad := updateBookingDoc_error db _ nowMs rand e hup
          exact absurd hdates (not_lt.mpr hbad)
        · cases h
          obtain ⟨b1, hhook, hbk, hcars⟩ := updateBookingDoc_ok db _ nowMs rand _ hup
          obtain ⟨hb1eq, hlt⟩ := runPreSaveHooks_ok _ nowMs rand b1 hhook
          have hid : b1.id = booking.id := by rw [hb1eq]
          refine ⟨⟨fun _ => ⟨hu, not_le.mp hs, hc⟩, fun _ => rfl⟩,
            fun _ => ⟨b1, ?_, ?_⟩, fun hne => absurd rfl hne⟩
          · unfold findBooking
            rw [hbk]
            exact find?_map_replace db.bookings bid booking b1 hb hid
          · rw [hb1eq]
            exact ⟨rfl, rfl, rfl, rfl, rfl⟩

/-- Closed instance of C7: the demonstration booking (owner 7, start day 10,
status confirmed) is cancelled by its owner at day 9. -/
theorem cancelBooking_spec_witness :
    (cancelBooking demoDb 1 7 (dateOnlyMs 9) 111 "AB").1 = CancelResult.cancelled :=
  (cancelBooking_spec demoDb 1 7 (dateOnlyMs 9) 111 "AB" demoBooking _ _
      (by decide) (by decide) rfl).1.mpr ⟨rfl, by decide, by decide⟩

/-! ### C9: bookingId assignment -/

/-- C9.  A successful first persistence stores the document with `bookingId`
assigned — generated as the `CG` prefix, the timestamp, and the random
suffix when it was absent, kept verbatim when present — never `none`, and
only when no stored booking already carries that value (the storage-layer
uniqueness constraint); and the hooks never regenerate an already-assigned
`bookingId` on later writes. -/
theorem bookingId_spec :
    (∀ (db : DB) (b : Booking) (nowMs : Int) (rand : String) (db' : DB),
      insertBooking db b nowMs rand = Except.ok db' →
      db'.bookings = db.bookings ++
          [{ b with bookingId := match b.bookingId with
              | none => some (genBookingId nowMs rand)
              | some s => some s }] ∧
        (match b.bookingId with
          | none => some (genBookingId nowMs rand)
          | some s => some s) ≠ (none : Option String) ∧
        ∀ x ∈ db.bookings, x.bookingId ≠ (match b.bookingId with
          | none => some (genBookingId nowMs rand)
          | some s => some s)) ∧
    (∀ (b : Booking) (nowMs : Int) (rand : String) (b1 : Booking) (s : String),
      runPreSaveHooks b nowMs rand = Except.ok b1 → b.bookingId = some s →
      b1.bookingId = some s) := by
  constructor
  · intro db b nowMs rand db' h
    obtain ⟨b1, hhook, hbk, hcars, huniq⟩ := insertBooking_ok db b nowMs rand db' h
    obtain ⟨hb1eq, hlt⟩ := runPreSaveHooks_ok b nowMs rand b1 hhook
    subst hb1eq
    refine ⟨hbk, ?_, ?_⟩
    · rcases b.bookingId with _ | s <;> simp
    · intro x hx
      have := huniq x hx
      exact this
  · intro b nowMs rand b1 s hhook hbid
    obtain ⟨hb1eq, hlt⟩ := runPreSaveHooks_ok b nowMs rand b1 hhook
    rw [hb1eq]
    simp only [hbid]

/-- Closed instance of C9: inserting a fresh booking into the demonstration
store assigns exactly the generated identifier. -/
theorem bookingId_spec_witness :
    insertedDb.bookings = demoDb.bookings ++
        [{ freshBooking with bookingId := some (genBookingId 222 "ZZZZZ") }] ∧
      some (genBookingId 222 "ZZZZZ") ≠ (none : Option String) := by
  have h := bookingId_spec.1 demoDb freshBooking 222 "ZZZZZ" insertedDb (by rfl)
  exact ⟨h.1, h.2.1⟩

/-! ### C8: date-interval validation -/

/-- C8, counterexample.  The admin status route persists (via
`findByIdAndUpdate`, which runs no pre-save middleware) a booking whose
`startDate` is not strictly before its `endDate`, without rejecting the
write — so interval-ordering validation does not run at every persistence
write. -/
theorem adminUpdate_skips_validation_cex :
    adminUpdateBookingStatus badDb 9 BookingStatus.completed = some badDbAfter ∧
      ({ badBooking with status := BookingStatus.completed }).endDate ≤
        ({ badBooking with status := BookingStatus.completed }).startDate := by
  exact ⟨by decide, by decide⟩

/-- The bookings list after a verify-payment run is unchanged or extended by
one hook-processed document. -/
theorem verifyPayment_bookings_shape
    (db : DB) (hmac : String → String → String) (secret orderId paymentId sig : String)
    (d : BookingDetails) (userId newId : Nat) (nowMs : Int) (rand : String)
    (r : VerifyResult) (db' : DB)
    (h : verifyPayment db hmac secret orderId paymentId sig d userId newId nowMs rand = (r, db')) :
    db'.bookings = db.bookings ∨
      ∃ b0 b1, runPreSaveHooks b0 nowMs rand = Except.ok b1 ∧
        db'.bookings = db.bookings ++ [b1] := by
  unfold verifyPayment at h
  split at h
  · cases h
    exact Or.inl rfl
  · unfold processVerifiedBooking at h
    rcases hfc : findCar db d.carId with _ | car <;> simp only [hfc] at h
    · cases h
      exact Or.inl rfl
    · split at h
      · cases h
        exact Or.inl rfl
      · split at h
        · cases h
          exact Or.inl rfl
        · rcases hins : insertBooking db (newConfirmedBooking car orderId paymentId d userId newId) nowMs rand
              with e | db1 <;> simp only [hins] at h <;> cases h
          · exact Or.inl rfl
          · obtain ⟨b1, hh, hbk, hcars, huniq⟩ := insertBooking_ok _ _ _ _ _ hins
            exact Or.inr ⟨_, b1, hh, hbk⟩

/-- The bookings list after a cancellation attempt is unchanged or has one
document replaced by a hook-processed one. -/
theorem cancelBooking_bookings_shape
    (db : DB) (bid userId : Nat) (now nowMs : Int) (rand : String)
    (r : CancelResult) (db' : DB)
    (h : cancelBooking db bid userId now nowMs rand = (r, db')) :
    db'.bookings = db.bookings ∨
      ∃ b0 b1, runPreSaveHooks b0 nowMs rand = Except.ok b1 ∧
        db'.bookings = db.bookings.map (fun x => if x.id == b1.id then b1 else x) := by
  unfold cancelBooking at h
  rcases hfb : findBooking db bid with _ | booking <;> simp only [hfb] at h
  · cases h
    exact Or.inl rfl
  · split at h
    · cases h
      exact Or.inl rfl
    · split at h
      · cases h
        exact Or.inl rfl
      · split at h
        · cases h
          exact Or.inl rfl
        · rcases hup : updateBookingDoc db { booking with status := BookingStatus.cancelled } nowMs rand
              with e | db1 <;> simp only [hup] at h <;> cases h
          · exact Or.inl rfl
          · obtain ⟨b1, hh, hbk, hcars⟩ := updateBookingDoc_ok _ _ _ _ _ hup
            exact Or.inr ⟨_, b1, hh, hbk⟩

/-- C8, amended.  The date-order validation runs in every `save()`-based
write (the hooks reject `startDate >= endDate`); the admin status update via
`findByIdAndUpdate` bypasses it but rewrites only the status field, so every
persistence operation of the system still preserves the invariant that all
stored bookings have `startDate` strictly before `endDate`. -/
theorem date_invariant_spec :
    (∀ (b : Booking) (nowMs : Int) (rand : String) (b1 : Booking),
      runPreSaveHooks b nowMs rand = Except.ok b1 → b1.startDate < b1.endDate) ∧
    (∀ db db', DatesOk db → Step db db' → DatesOk db') := by
  have hhook : ∀ (b : Booking) (nowMs : Int) (rand : String) (b1 : Booking),
      runPreSaveHooks b nowMs rand = Except.ok b1 → b1.startDate < b1.endDate :=
    fun b nowMs rand b1 h => (runPreSaveHooks_ok b nowMs rand b1 h).2
  have happ : ∀ (l : List Booking) (b1 : Booking),
      (∀ x ∈ l, x.startDate < x.endDate) → b1.startDate < b1.endDate →
      ∀ x ∈ l ++ [b1], x.startDate < x.endDate := by
    intro l b1 hl hb x hx
    rcases List.mem_append.mp hx with hx | hx
    · exact hl x hx
    · have := List.mem_singleton.mp hx
      subst this
      exact hb
  have hmap : ∀ (l : List Booking) (b1 : Booking),
      (∀ x ∈ l, x.startDate < x.endDate) → b1.startDate < b1.endDate →
      ∀ x ∈ l.map (fun x => if x.id == b1.id then b1 else x), x.startDate < x.endDate := by
    intro l b1 hl hb x hx
    obtain ⟨y, hy, rfl⟩ := List.mem_map.mp hx
    by_cases hc : (y.id == b1.id) = true
    · rw [if_pos hc]
      exact hb
    · rw [if_neg hc]
      exact hl y hy
  refine ⟨hhook, ?_⟩
  intro db db' hok hstep
  cases hstep with
  | insert b nowMs rand db2 hins =>
    obtain ⟨b1, hh, hbk, hcars, huniq⟩ := insertBooking_ok _ _ _ _ _ hins
    intro x hx
    rw [hbk] at hx
    exact happ db.bookings b1 hok (hhook _ _ _ _ hh) x hx
  | update b nowMs rand db2 hup =>
    obtain ⟨b1, hh, hbk, hcars⟩ := updateBookingDoc_ok _ _ _ _ _ hup
    intro x hx
    rw [hbk] at hx
    exact hmap db.bookings b1 hok (hhook _ _ _ _ hh) x hx
  | verify hmac secret orderId paymentId sig d userId newId nowMs rand r db2 hv =>
    rcases verifyPayment_bookings_shape db hmac secret orderId paymentId sig d userId newId
        nowMs rand r db' hv with heq | ⟨b0, b1, hh, hbk⟩
    · intro x hx
      rw [heq] at hx
      exact hok x hx
    · intro x hx
      rw [hbk] at hx
      exact happ db.bookings b1 hok (hhook _ _ _ _ hh) x hx
  | cancel bid userId now nowMs rand r db2 hcn =>
    rcases cancelBooking_bookings_shape db bid userId now nowMs rand r db' hcn
        with heq | ⟨b0, b1, hh, hbk⟩
    · intro x hx
      rw [heq] at hx
      exact hok x hx
    · intro x hx
      rw [hbk] at hx
      exact hmap db.bookings b1 hok (hhook _ _ _ _ hh) x hx
  | adminStatus bid st db2 hadm =>
    unfold adminUpdateBookingStatus at hadm
    rcases hfb : findBooking db bid with _ | b <;> simp only [hfb] at hadm
    · cases hadm
    · cases hadm
      intro x hx
      obtain ⟨y, hy, rfl⟩ := List.mem_map.mp hx
      by_cases hc : (y.id == b.id) = true
      · rw [if_pos hc]
        exact hok y hy
      · rw [if_neg hc]
        exact hok y hy

/-- Closed instance of C8 (amended): an admin status write on the
demonstration store preserves the date invariant. -/
theorem date_invariant_spec_witness :
    DatesOk { cars := [demoCar], bookings := [{ demoBooking with status := BookingStatus.completed }] } := by
  refine date_invariant_spec.2 demoDb _ ?_
    (Step.adminStatus demoDb 1 BookingStatus.completed _ (by decide))
  intro b hb
  have := List.mem_singleton.mp hb
  subst this
  decide

/-! ### C10: the verify-payment re-check interval -/

/-- C10, counterexample.  For a daily booking whose `startTime` and `endTime`
are both `"00:00"`, the re-check interval endpoints coincide exactly with the
raw `startDate`/`endDate` stored on the created booking — they do not differ,
as the claim asserts. -/
theorem recheck_interval_cex :
    dateTimeMs 30 0 = dateOnlyMs 30 ∧ dateTimeMs 32 0 = dateOnlyMs 32 ∧
      (newConfirmedBooking demoCar "o1" "p1" dailyZeroDetails 7 4).startDate = dateTimeMs 30 0 ∧
      (newConfirmedBooking demoCar "o1" "p1" dailyZeroDetails 7 4).endDate = dateTimeMs 32 0 := by
  exact ⟨by decide, by decide, by decide, by decide⟩

/-- C10, amended.  The verify-payment overlap re-check always queries the
interval built by combining each date with its companion time, regardless of
`bookingType`; for a daily booking that interval always differs from the
normalized 00:00:00.000–23:59:59.999 pricing interval, and it differs from
the raw stored `startDate`/`endDate` exactly when `startTime` or `endTime`
is not `"00:00"`. -/
theorem recheck_interval_spec :
    (∀ (db : DB) (hmac : String → String → String) (secret orderId paymentId sig : String)
        (d : BookingDetails) (userId newId : Nat) (nowMs : Int) (rand : String)
        (car : Car) (r : VerifyResult) (db' : DB),
      verifyPayment db hmac secret orderId paymentId sig d userId newId nowMs rand = (r, db') →
      hmac secret (orderId ++ "|" ++ paymentId) = sig →
      findCar db d.carId = some car → car.isAvailable = true →
      db.bookings.any (conflictsWith d.carId (dateTimeMs d.startDate d.startTime)
        (dateTimeMs d.endDate d.endTime)) = true →
      r = VerifyResult.overlap) ∧
    (∀ (sd ed : Int) (st et : Nat),
      (dateTimeMs sd st, dateTimeMs ed et) ≠ (dailyNormStart sd, dailyNormEnd ed)) ∧
    (∀ (sd ed : Int) (st et : Nat),
      (dateTimeMs sd st, dateTimeMs ed et) = (dateOnlyMs sd, dateOnlyMs ed) ↔
        st = 0 ∧ et = 0) := by
  refine ⟨?_, ?_, ?_⟩
  · intro db hmac secret orderId paymentId sig d userId newId nowMs rand car r db' h hsig hfc hav hany
    unfold verifyPayment at h
    rw [if_neg (not_not_intro hsig)] at h
    exact (processVerifiedBooking_cases db orderId paymentId d userId newId nowMs rand r db' h).2.2.2.2.2
      car hfc hav hany
  · intro sd ed st et heq
    rw [Prod.mk.injEq] at heq
    obtain ⟨h1, h2⟩ := heq
    simp only [dateTimeMs, dailyNormStart, dailyNormEnd, msPerDay] at h1 h2
    omega
  · intro sd ed st et
    rw [Prod.mk.injEq]
    unfold dateTimeMs dateOnlyMs msPerDay
    constructor
    · rintro ⟨h1, h2⟩
      omega
    · rintro ⟨h1, h2⟩
      subst h1
      subst h2
      omega

/-- Closed instance of C10 (amended): with a matching signature, an available
car and a conflicting stored booking, verify-payment reports the overlap. -/
theorem recheck_interval_spec_witness :
    (verifyPayment demoDb demoHmac "S" "o2" "p2" "S:o2|p2" clashDetails 7 6 777 "WWWWW").1 =
      VerifyResult.overlap :=
  recheck_interval_spec.1 demoDb demoHmac "S" "o2" "p2" "S:o2|p2" clashDetails 7 6 777 "WWWWW"
    demoCar _ _ rfl rfl (by decide) (by decide) (by decide)

end CarGo
